import Mathlib

/-!
Verification of the spatial-assignment engine of the Chicago community-map
repository: the point-in-polygon classifier (`src/services/geospatialService.ts`)
and the coordinate validator (`src/services/chicagoParkService.ts`).

Numbers are modelled as exact rationals (`ℚ`) for the geometry, and as `JSNum`
(rationals extended with NaN and the two infinities, with JavaScript comparison
semantics) for the coordinate validators, whose source explicitly tests `isNaN`.
Stateful methods of the `GeospatialService` class are embedded as explicit
state-passing functions over a `GeoState`; the outcome of the external `fetch`
is an explicit `FetchOutcome` argument; a thrown exception is an `Except.error`.
-/

namespace GeoSpatial

/-- GeoJSON-style geometry carried by the `the_geom` field of a community-area
record.  `polygon` holds a list of rings (exterior ring first, then holes);
`multiPolygon` holds a list of such ring lists.  Dispatch in the source is on
the `type` tag. -/
inductive Geometry where
  | polygon (coordinates : List (List (ℚ × ℚ)))
  | multiPolygon (coordinates : List (List (List (ℚ × ℚ))))
deriving DecidableEq

/-- A raw community-area record from the GeoJSON feed.  The three fields used
by the service are modelled; each may be absent (`none` models a missing /
`undefined` field).  Remaining fields of the TypeScript interface
(`area_num_1`, `shape_area`, ...) are never read by the engine and omitted. -/
structure RawArea where
  the_geom : Option Geometry
  area_numbe : Option String
  community : Option String
deriving DecidableEq

/-- One edge test of the ray-casting loop in `pointInRing`:
`((yi > y) !== (yj > y)) && (x < (xj - xi) * (y - yi) / (yj - yi) + xi)`
with `vi = ring[i]` the current vertex and `vj = ring[j]` the previous one.
This is the exact-arithmetic reading of the expression: each `ℚ` operation
stands for the corresponding IEEE-754 double operation without its rounding
step.  `edgeCrossesF` below is the rounding-faithful counterpart, used for the
claims whose truth depends on that rounding. -/
def edgeCrosses (p vi vj : ℚ × ℚ) : Bool :=
  (decide (vi.2 > p.2) != decide (vj.2 > p.2)) &&
  decide (p.1 < (vj.1 - vi.1) * (p.2 - vi.2) / (vj.2 - vi.2) + vi.1)

/-- The list of (current, previous) vertex pairs visited by the loop
`for (let i = 0, j = n - 1; i < n; j = i++)`: index 0 is paired with the last
vertex, index `i > 0` with index `i - 1`. -/
def ringEdges (ring : List (ℚ × ℚ)) : List ((ℚ × ℚ) × (ℚ × ℚ)) :=
  ring.zip (ring.getLastD (0, 0) :: ring)

/-- Embeds `pointInRing` (geospatialService.ts:201-216): even-odd ray casting; the
`inside` flag is toggled once per crossing edge, i.e. the result is the xor
of `edgeCrosses` over all cyclic edges. -/
def pointInRing (p : ℚ × ℚ) (ring : List (ℚ × ℚ)) : Bool :=
  ((ringEdges ring).map (fun e => edgeCrosses p e.1 e.2)).foldl xor false

/-- Embeds `isPointInPolygon` (geospatialService.ts:184-199).  `coordinates[0]` is the
exterior ring; the point must be inside it and in none of the hole rings.
When `coordinates` is empty, `coordinates[0]` is `undefined` and the inner
`ring.length` access throws a TypeError; the `none` result models that thrown
exception (it is caught by the caller `isPointInGeometry`). -/
def isPointInPolygonE (p : ℚ × ℚ) (coordinates : List (List (ℚ × ℚ))) : Option Bool :=
  match coordinates with
  | [] => none
  | exteriorRing :: holes =>
      if !pointInRing p exteriorRing then some false
      else if holes.any (fun h => pointInRing p h) then some false
      else some true

/-- JavaScript `Array.prototype.some` with a callback that may throw:
iteration stops at the first `true`, and a thrown exception (`none`)
propagates unless a `true` was found earlier. -/
def someE (f : α → Option Bool) : List α → Option Bool
  | [] => some false
  | x :: xs =>
      match f x with
      | none => none
      | some true => some true
      | some false => someE f xs

/-- Embeds `isPointInGeometry` (geospatialService.ts:165-182): a missing geometry is
rejected (`!geometry` guard); a `Polygon` defers to `isPointInPolygon`; a
`MultiPolygon` takes `some` over its constituent polygons.  The surrounding
try/catch converts any thrown exception into `false`, modelled by `getD false`
over the exception-aware inner results. -/
def isPointInGeometry (p : ℚ × ℚ) (geometry : Option Geometry) : Bool :=
  match geometry with
  | none => false
  | some (.polygon coords) => (isPointInPolygonE p coords).getD false
  | some (.multiPolygon coords) => (someE (isPointInPolygonE p) coords).getD false

/-- JavaScript `parseInt` restricted to the decimal inputs the feed carries:
leading whitespace is skipped, an optional sign is read, then the longest
prefix of decimal digits; `none` models the `NaN` result when no digit is
found. -/
def parseIntJS (s : String) : Option Int :=
  let cs := s.toList.dropWhile (fun c => c.isWhitespace)
  let signAndRest : Int × List Char :=
    match cs with
    | '-' :: rest => (-1, rest)
    | '+' :: rest => (1, rest)
    | _ => (1, cs)
  let ds := signAndRest.2.takeWhile (fun c => c.isDigit)
  if ds.isEmpty then none
  else some (signAndRest.1 * ((ds.foldl (fun n c => n * 10 + (c.toNat - 48)) 0 : Nat) : Int))

/-- The value `parseInt(area.area_numbe) || null` returned on a geometry match
(geospatialService.ts:38): a missing field gives `parseInt(undefined) = NaN`,
and both `NaN` and `0` are falsy, collapsing to `null` (`none`). -/
def jsAreaId (a : RawArea) : Option Int :=
  match a.area_numbe with
  | none => none
  | some s =>
      match parseIntJS s with
      | none => none
      | some n => if n = 0 then none else some n

/-- The classification loop of `getCommunityAreaForCoordinates`
(geospatialService.ts:34-42) over an already-loaded cache: the point is
`[lng, lat]`; the loop returns on the first record whose geometry contains
the point, and `null` after exhausting the cache. -/
def classifyLoaded (cache : List RawArea) (lat lng : ℚ) : Option Int :=
  match cache.find? (fun a => isPointInGeometry (lng, lat) a.the_geom) with
  | some a => jsAreaId a
  | none => none

/-- The constant `CACHE_DURATION = 60 * 60 * 1000` milliseconds (one hour). -/
def CACHE_DURATION : Int := 60 * 60 * 1000

/-- The mutable fields of the `GeospatialService` instance. -/
structure GeoState where
  communityAreasCache : List RawArea
  lastCommunityLoadTime : Int
deriving DecidableEq

/-- Outcome of the `fetch`-and-parse step inside `loadCommunityAreas`:
the network request may reject, the response may carry a non-ok HTTP status
(`!response.ok` throws), the body may fail to parse as JSON, or a list of raw
records is produced. -/
inductive FetchOutcome where
  | networkError
  | httpError
  | jsonError
  | success (data : List RawArea)
deriving DecidableEq

/-- Whether a fetch outcome is one of the three failure modes. -/
def isFetchFailure : FetchOutcome → Bool
  | .success _ => false
  | _ => true

/-- JavaScript truthiness of an optional string field: `undefined` and the
empty string are falsy. -/
def jsTruthyStr : Option String → Bool
  | none => false
  | some s => !(s == "")

/-- JavaScript truthiness of an optional geometry object: any object is
truthy, `undefined` is falsy. -/
def jsTruthyGeom : Option Geometry → Bool
  | none => false
  | some _ => true

/-- The admission filter of `loadCommunityAreas` (geospatialService.ts:116-118):
`area.the_geom && area.area_numbe && area.community`. -/
def recordAdmitted (a : RawArea) : Bool :=
  jsTruthyGeom a.the_geom && jsTruthyStr a.area_numbe && jsTruthyStr a.community

/-- Field-presence predicate for cached records: geometry, identifier and
display name are all present. -/
def fieldsPresent (a : RawArea) : Bool :=
  a.the_geom.isSome && a.area_numbe.isSome && a.community.isSome

/-- Embeds `loadCommunityAreas` (geospatialService.ts:107-126): on any failure of the
fetch-and-parse step the catch block logs and rethrows, before the cache or
the timestamp assignments are reached, so the state is returned unchanged with
the error; on success the cache is replaced by the filtered records and the
timestamp is set to the current time. -/
def loadCommunityAreas (st : GeoState) (now : Int) (fo : FetchOutcome) :
    GeoState × Except Unit Unit :=
  match fo with
  | .networkError => (st, .error ())
  | .httpError => (st, .error ())
  | .jsonError => (st, .error ())
  | .success data =>
      ({ communityAreasCache := data.filter recordAdmitted,
         lastCommunityLoadTime := now }, .ok ())

/-- Embeds `shouldRefreshCommunityCache` (geospatialService.ts:102-105). -/
def shouldRefreshCommunityCache (st : GeoState) (now : Int) : Bool :=
  decide (now - st.lastCommunityLoadTime > CACHE_DURATION) ||
  (st.communityAreasCache.length == 0)

/-- Embeds `ensureCommunityAreasLoaded` (geospatialService.ts:96-100): refresh only
when the staleness test fires; a thrown refresh error is not caught here. -/
def ensureCommunityAreasLoaded (st : GeoState) (now : Int) (fo : FetchOutcome) :
    GeoState × Except Unit Unit :=
  if shouldRefreshCommunityCache st now then loadCommunityAreas st now fo
  else (st, .ok ())

/-- Embeds `getCommunityAreaForCoordinates` (geospatialService.ts:31-43): ensure the
cache is loaded (an error thrown there propagates to the caller), then run the
classification loop over the cached records. -/
def getCommunityAreaForCoordinates (st : GeoState) (now : Int) (fo : FetchOutcome)
    (lat lng : ℚ) : GeoState × Except Unit (Option Int) :=
  match ensureCommunityAreasLoaded st now fo with
  | (st', .error e) => (st', .error e)
  | (st', .ok _) => (st', .ok (classifyLoaded st'.communityAreasCache lat lng))

/-- Size classification of a park (`'small' | 'medium' | 'large'`). -/
inductive ParkSize where
  | small
  | medium
  | large
deriving DecidableEq

/-- The `Park` type (types/park.ts): `coordinates` is `[latitude, longitude]`. -/
structure Park where
  id : String
  name : String
  address : String
  coordinates : ℚ × ℚ
  communityArea : Int
  amenities : List String
  description : String
  size : ParkSize
deriving DecidableEq

/-- The correction step of `correctParkCommunityArea` (geospatialService.ts:85-93):
`if (actualCommunityArea && actualCommunityArea !== park.communityArea)` spreads
the park with the new community area, otherwise the park is returned as is
(`0` is falsy, so a zero result would not trigger a correction). -/
def applyCorrection (park : Park) : Option Int → Park
  | none => park
  | some n =>
      if n ≠ 0 ∧ n ≠ park.communityArea then { park with communityArea := n }
      else park

/-- Embeds `correctParkCommunityArea` (geospatialService.ts:81-94): classify the park's
own coordinates (`[lat, lng] = park.coordinates`), then apply the correction. -/
def correctParkCommunityArea (st : GeoState) (now : Int) (fo : FetchOutcome)
    (park : Park) : GeoState × Except Unit Park :=
  match getCommunityAreaForCoordinates st now fo park.coordinates.1 park.coordinates.2 with
  | (st', .error e) => (st', .error e)
  | (st', .ok actual) => (st', .ok (applyCorrection park actual))

/-- A JavaScript number as used by the validators: NaN, the two infinities, or
a finite value (modelled exactly as a rational). -/
inductive JSNum where
  | nan
  | posInf
  | negInf
  | num (q : ℚ)
deriving DecidableEq

/-- JavaScript `a <= b`: false whenever NaN is involved. -/
def jsLe : JSNum → JSNum → Bool
  | .nan, _ => false
  | _, .nan => false
  | .negInf, _ => true
  | _, .posInf => true
  | .posInf, _ => false
  | _, .negInf => false
  | .num a, .num b => decide (a ≤ b)

/-- JavaScript `a >= b`. -/
def jsGe (a b : JSNum) : Bool := jsLe b a

/-- JavaScript `isNaN` on a number. -/
def jsIsNaN : JSNum → Bool
  | .nan => true
  | _ => false

/-- Embeds `isValidChicagoCoordinates` (geospatialService.ts:219-224): the Chicago
bounding box, all four comparisons inclusive. -/
def isValidChicagoCoordinates (lat lng : JSNum) : Bool :=
  jsGe lat (.num 41.6) && jsLe lat (.num 42.1) &&
  jsGe lng (.num (-88.3)) && jsLe lng (.num (-87.5))

/-- Embeds `isValidCoordinates` (chicagoParkService.ts:165-175): NaN checks, the
global latitude/longitude envelope, then the Chicago bounding box.  The
`!== null` / `!== undefined` comparisons are identities on a number and are
omitted. -/
def isValidCoordinates (lat lng : JSNum) : Bool :=
  !jsIsNaN lat && !jsIsNaN lng &&
  jsGe lat (.num (-90)) && jsLe lat (.num 90) &&
  jsGe lng (.num (-180)) && jsLe lng (.num 180) &&
  isValidChicagoCoordinates lat lng

/-- A closed square ring, 0..10 on both axes. -/
def squareRing : List (ℚ × ℚ) := [(0, 0), (10, 0), (10, 10), (0, 10), (0, 0)]

/-- A closed square hole ring, 4..6 on both axes. -/
def holeRing : List (ℚ × ℚ) := [(4, 4), (6, 4), (6, 6), (4, 6), (4, 4)]

/-- A polygon geometry consisting of the square ring alone. -/
def squareGeom : Geometry := .polygon [squareRing]

/-- A community-area record with identifier "1" over the square. -/
def areaOne : RawArea := ⟨some squareGeom, some "1", some "LOOP"⟩

/-- A community-area record whose identifier field is the string "0". -/
def areaZero : RawArea := ⟨some squareGeom, some "0", some "ZERO"⟩

/-- A raw record whose identifier field is missing. -/
def badArea : RawArea := ⟨some squareGeom, none, some "BAD"⟩

/-- A store state holding `areaOne`, freshly loaded at time 0. -/
def stOne : GeoState := ⟨[areaOne], 0⟩

/-- A store state holding `areaZero`, freshly loaded at time 0. -/
def stZero : GeoState := ⟨[areaZero], 0⟩

/-- An empty store state. -/
def stEmpty : GeoState := ⟨[], 0⟩

/-- A park at (5, 5) already assigned to community area 1. -/
def park0 : Park := ⟨"chicago-park-1", "Test Park", "123 W St", (5, 5), 1, [], "d", .small⟩

/-- A park at (5, 5) assigned to community area 2, due for correction. -/
def park1 : Park := ⟨"chicago-park-2", "Other Park", "125 W St", (5, 5), 2, [], "d", .small⟩

/-- The expected result of correcting `park1`: only the community area changes. -/
def park1Corrected : Park := { park1 with communityArea := 1 }

/-- Round a rational to the nearest integer, ties to even (the IEEE-754
default rounding of a significand). -/
def roundHalfEven (x : ℚ) : ℤ :=
  if x - ⌊x⌋ < 1 / 2 then ⌊x⌋
  else if 1 / 2 < x - ⌊x⌋ then ⌊x⌋ + 1
  else if ⌊x⌋ % 2 = 0 then ⌊x⌋ else ⌊x⌋ + 1

/-- Round a positive rational to the nearest binary64 value: scale into a
53-bit significand using the base-2 logarithm of the magnitude, round ties to
even, and scale back. -/
def roundPos (a : ℚ) : ℚ :=
  ((roundHalfEven (a * 2 ^ ((52 : ℤ) - Int.log 2 a)) : ℤ) : ℚ) * 2 ^ (Int.log 2 a - 52)

/-- Round-to-nearest-even binary64 rounding of an exact rational, covering the
normal range of the format (every value arising in the statements proved below
is normal; sub-normal underflow and overflow to infinity are outside the
model). -/
def roundDouble (q : ℚ) : ℚ :=
  if q = 0 then 0
  else if 0 < q then roundPos q
  else -roundPos (-q)

/-- IEEE-754 double addition: the exact sum, correctly rounded. -/
def fadd (a b : ℚ) : ℚ := roundDouble (a + b)

/-- IEEE-754 double subtraction: the exact difference, correctly rounded. -/
def fsub (a b : ℚ) : ℚ := roundDouble (a - b)

/-- IEEE-754 double multiplication: the exact product, correctly rounded. -/
def fmul (a b : ℚ) : ℚ := roundDouble (a * b)

/-- IEEE-754 double division: the exact quotient, correctly rounded.  Division
by zero yields 0 here instead of an infinity; in `edgeCrossesF` the quotient
only matters when the straddle guard holds, which forces a nonzero divisor. -/
def fdiv (a b : ℚ) : ℚ := roundDouble (a / b)

/-- The edge test of `pointInRing` with the source's IEEE-754 double
arithmetic made explicit: every arithmetic operation of
`(xj - xi) * (y - yi) / (yj - yi) + xi` rounds its exact result to the nearest
double (comparisons on doubles are exact and need no rounding). -/
def edgeCrossesF (p vi vj : ℚ × ℚ) : Bool :=
  (decide (vi.2 > p.2) != decide (vj.2 > p.2)) &&
  decide (p.1 < fadd (fdiv (fmul (fsub vj.1 vi.1) (fsub p.2 vi.2)) (fsub vj.2 vi.2)) vi.1)

/-- The ray-casting loop of `pointInRing` (geospatialService.ts:201-216) over
IEEE-754 double arithmetic: identical to `pointInRing` except that each edge
is tested with the rounding-faithful `edgeCrossesF`. -/
def pointInRingF (p : ℚ × ℚ) (ring : List (ℚ × ℚ)) : Bool :=
  ((ringEdges ring).map (fun e => edgeCrossesF p e.1 e.2)).foldl xor false

/-- The exact value of the binary64 double nearest 1/3, i.e. of the JavaScript
number literal `0.3333333333333333`. -/
def oneThirdDouble : ℚ := 6004799503160661 / 2 ^ 54

/-- A fold of `xor` over a list of booleans is invariant under permutation of
the list (it is the parity of the number of `true` entries). -/
theorem foldl_xor_perm {l₁ l₂ : List Bool} (h : List.Perm l₁ l₂) (b : Bool) :
    l₁.foldl xor b = l₂.foldl xor b := by
  induction h generalizing b with
  | nil => rfl
  | cons x _ ih => simp only [List.foldl]; exact ih _
  | swap x y l =>
      simp only [List.foldl]
      congr 1
      cases b <;> cases x <;> cases y <;> rfl
  | trans _ _ ih₁ ih₂ => rw [ih₁, ih₂]

/-- Zipping a list ending in `v` with itself shifted by one starting at `x`:
the last pair pairs `v` with the last element before it. -/
theorem zip_append_singleton {α : Type} (vs : List α) (v x : α) :
    (vs ++ [v]).zip (x :: (vs ++ [v])) = vs.zip (x :: vs) ++ [(v, vs.getLastD x)] := by
  induction vs generalizing x with
  | nil => rfl
  | cons u us ih =>
      simp only [List.cons_append, List.zip_cons_cons, List.getLastD_cons]
      rw [ih u]

/-- Rotating a ring by one position permutes its cyclic edge list. -/
theorem ringEdges_rotate_one (l : List (ℚ × ℚ)) :
    List.Perm (ringEdges (l.rotate 1)) (ringEdges l) := by
  cases l with
  | nil => simp [ringEdges]
  | cons v vs =>
      rw [List.rotate_cons_succ, List.rotate_zero]
      unfold ringEdges
      rw [show (vs ++ [v]).getLastD (0, 0) = v by simp]
      rw [zip_append_singleton vs v v]
      rw [List.getLastD_cons, List.zip_cons_cons]
      exact List.perm_append_singleton _ _

/-- Rotating a ring by any amount permutes its cyclic edge list. -/
theorem ringEdges_rotate (l : List (ℚ × ℚ)) (k : ℕ) :
    List.Perm (ringEdges (l.rotate k)) (ringEdges l) := by
  induction k generalizing l with
  | zero => rw [List.rotate_zero]
  | succ k ih =>
      have h : l.rotate (k + 1) = (l.rotate 1).rotate k := by
        rw [List.rotate_rotate, Nat.add_comm]
      rw [h]
      exact (ih (l.rotate 1)).trans (ringEdges_rotate_one l)

/-- The ray-casting edge test is symmetric in the two edge endpoints: in exact
arithmetic, the x-coordinate where the edge crosses the scan line does not
depend on the direction the edge is traversed. -/
theorem edgeCrosses_symm (p v w : ℚ × ℚ) : edgeCrosses p v w = edgeCrosses p w v := by
  unfold edgeCrosses
  by_cases h : v.2 = w.2
  · rw [h]
    simp
  · have h2 : w.2 - v.2 ≠ 0 := sub_ne_zero.mpr (Ne.symm h)
    have h3 : v.2 - w.2 ≠ 0 := sub_ne_zero.mpr h
    have hx : (w.1 - v.1) * (p.2 - v.2) / (w.2 - v.2) + v.1
        = (v.1 - w.1) * (p.2 - w.2) / (v.2 - w.2) + w.1 := by
      field_simp
      ring
    rw [hx]
    cases hv : decide (v.2 > p.2) <;> cases hw : decide (w.2 > p.2) <;> simp

/-- Claim C6: for every ring R, every cyclic rotation of R's vertex list, and
every point p, the ring-containment test gives the same result on R and on the
rotated ring. -/
theorem pointInRing_rotate (p : ℚ × ℚ) (ring : List (ℚ × ℚ)) (k : ℕ) :
    pointInRing p (ring.rotate k) = pointInRing p ring := by
  unfold pointInRing
  exact foldl_xor_perm (List.Perm.map _ (ringEdges_rotate ring k)) false

/-- In the exact-arithmetic idealization, a ring with fewer than three
vertices contains no point: the empty and one-vertex rings produce no crossing
edge, and the two edges of a two-vertex ring are traversals of the same
segment whose crossings cancel.  The cancellation step uses `edgeCrosses_symm`
and therefore does not survive IEEE-754 rounding; see
`pointInRingF_two_vertex_counterexample`. -/
theorem pointInRing_degenerate_exact (p : ℚ × ℚ) (ring : List (ℚ × ℚ))
    (h : ring.length < 3) : pointInRing p ring = false := by
  cases ring with
  | nil => rfl
  | cons v t =>
      cases t with
      | nil => simp [pointInRing, ringEdges, edgeCrosses]
      | cons w t2 =>
          cases t2 with
          | nil =>
              show (((([v, w].zip ([v, w].getLastD (0, 0) :: [v, w]))).map
                  fun e => edgeCrosses p e.1 e.2).foldl xor false) = false
              simp only [List.getLastD_cons, List.getLastD_nil, List.zip_cons_cons,
                List.zip_nil_right, List.map, List.foldl]
              rw [edgeCrosses_symm p v w]
              cases edgeCrosses p w v <;> rfl
          | cons c t3 =>
              exfalso
              simp only [List.length_cons] at h
              omega

/-- Characterization of `Int.log 2` on positive rationals by its bracketing
powers of two. -/
theorem int_log_eval {r : ℚ} (hr : 0 < r) (e : ℤ)
    (h1 : (2 : ℚ) ^ e ≤ r) (h2 : r < (2 : ℚ) ^ (e + 1)) : Int.log 2 r = e := by
  have hb : 1 < (2 : ℕ) := by norm_num
  have hle : e ≤ Int.log 2 r := by
    rw [← Int.zpow_le_iff_le_log hb hr]
    push_cast
    exact h1
  have hlt : Int.log 2 r < e + 1 := by
    rw [← Int.lt_zpow_iff_log_lt hb hr]
    push_cast
    exact h2
  omega

/-- Rounding half-to-even resolves to the floor when the fractional part is
below one half. -/
theorem roundHalfEven_of_floor_lt (x : ℚ) (f : ℤ) (hf : ⌊x⌋ = f) (h : x - f < 1 / 2) :
    roundHalfEven x = f := by
  unfold roundHalfEven
  rw [hf, if_pos h]

/-- Evaluation rule for `roundPos` given its logarithm and rounded
significand. -/
theorem roundPos_eval (a : ℚ) (e n : ℤ) (he : Int.log 2 a = e)
    (hn : roundHalfEven (a * 2 ^ ((52 : ℤ) - e)) = n) :
    roundPos a = (n : ℚ) * 2 ^ (e - 52) := by
  unfold roundPos
  rw [he, hn]

/-- On positive inputs `roundDouble` is `roundPos`. -/
theorem roundDouble_pos (a : ℚ) (ha : 0 < a) : roundDouble a = roundPos a := by
  unfold roundDouble
  rw [if_neg (ne_of_gt ha), if_pos ha]

/-- On negative inputs `roundDouble` rounds the magnitude and restores the
sign. -/
theorem roundDouble_neg (a : ℚ) (ha : 0 < a) : roundDouble (-a) = -roundPos a := by
  unfold roundDouble
  rw [if_neg (neg_ne_zero.mpr (ne_of_gt ha)), if_neg (by linarith), neg_neg]

/-- The double 1 is exactly representable. -/
theorem roundPos_one : roundPos 1 = 1 := by
  rw [roundPos_eval 1 0 (2 ^ 52)
    (int_log_eval one_pos 0 (by norm_num) (by norm_num))
    (by
      rw [show (1 : ℚ) * 2 ^ ((52 : ℤ) - 0) = ((2 ^ 52 : ℤ) : ℚ) by norm_num]
      exact roundHalfEven_of_floor_lt _ _ (Int.floor_intCast _) (by norm_num))]
  norm_num

/-- The double 2 is exactly representable. -/
theorem roundPos_two : roundPos 2 = 2 := by
  rw [roundPos_eval 2 1 (2 ^ 52)
    (int_log_eval two_pos 1 (by norm_num) (by norm_num))
    (by
      rw [show (2 : ℚ) * 2 ^ ((52 : ℤ) - 1) = ((2 ^ 52 : ℤ) : ℚ) by norm_num]
      exact roundHalfEven_of_floor_lt _ _ (Int.floor_intCast _) (by norm_num))]
  norm_num

/-- The double 3 is exactly representable. -/
theorem roundPos_three : roundPos 3 = 3 := by
  rw [roundPos_eval 3 1 (3 * 2 ^ 51)
    (int_log_eval (by norm_num) 1 (by norm_num) (by norm_num))
    (by
      rw [show (3 : ℚ) * 2 ^ ((52 : ℤ) - 1) = ((3 * 2 ^ 51 : ℤ) : ℚ) by norm_num]
      exact roundHalfEven_of_floor_lt _ _ (Int.floor_intCast _) (by norm_num))]
  norm_num

/-- The exact 1/3 rounds down to the double `oneThirdDouble`: the scaled
significand 2^54/3 has fractional part 1/3 < 1/2. -/
theorem roundPos_third : roundPos (1 / 3) = 6004799503160661 / 2 ^ 54 := by
  rw [roundPos_eval (1 / 3) (-2) 6004799503160661
    (int_log_eval (by norm_num) (-2) (by norm_num) (by norm_num))
    (by
      rw [show (1 / 3 : ℚ) * 2 ^ ((52 : ℤ) - (-2)) = 18014398509481984 / 3 by norm_num]
      refine roundHalfEven_of_floor_lt _ _ ?_ ?_
      · rw [Int.floor_eq_iff]
        constructor
        · norm_num
        · norm_num
      · norm_num)]
  norm_num

/-- The exact 2/3 rounds down: same scaled significand 2^54/3, one exponent
higher. -/
theorem roundPos_twoThirds : roundPos (2 / 3) = 6004799503160661 / 2 ^ 53 := by
  rw [roundPos_eval (2 / 3) (-1) 6004799503160661
    (int_log_eval (by norm_num) (-1) (by norm_num) (by norm_num))
    (by
      rw [show (2 / 3 : ℚ) * 2 ^ ((52 : ℤ) - (-1)) = 18014398509481984 / 3 by norm_num]
      refine roundHalfEven_of_floor_lt _ _ ?_ ?_
      · rw [Int.floor_eq_iff]
        constructor
        · norm_num
        · norm_num
      · norm_num)]
  norm_num

/-- `oneThirdDouble` is exactly representable and fixed by rounding. -/
theorem roundPos_oneThirdDouble : roundPos oneThirdDouble = oneThirdDouble := by
  rw [roundPos_eval oneThirdDouble (-2) 6004799503160661
    (int_log_eval (by norm_num [oneThirdDouble]) (-2) (by norm_num [oneThirdDouble])
      (by norm_num [oneThirdDouble]))
    (by
      rw [show oneThirdDouble * 2 ^ ((52 : ℤ) - (-2)) = ((6004799503160661 : ℤ) : ℚ) by
        norm_num [oneThirdDouble]]
      exact roundHalfEven_of_floor_lt _ _ (Int.floor_intCast _) (by norm_num))]
  norm_num [oneThirdDouble]

/-- The value `1 - 0.66666666666666663`, i.e. `0.33333333333333337`, is exactly
representable (even scaled significand) and fixed by rounding. -/
theorem roundPos_backSum : roundPos (3002399751580331 / 2 ^ 53) = 3002399751580331 / 2 ^ 53 := by
  rw [roundPos_eval (3002399751580331 / 2 ^ 53) (-2) 6004799503160662
    (int_log_eval (by norm_num) (-2) (by norm_num) (by norm_num))
    (by
      rw [show (3002399751580331 / 2 ^ 53 : ℚ) * 2 ^ ((52 : ℤ) - (-2)) =
          ((6004799503160662 : ℤ) : ℚ) by norm_num]
      exact roundHalfEven_of_floor_lt _ _ (Int.floor_intCast _) (by norm_num))]
  norm_num

/-- Double subtraction 1 - 0 is exact. -/
theorem fsub_one_zero : fsub 1 0 = 1 := by
  unfold fsub
  rw [show (1 : ℚ) - 0 = 1 by norm_num, roundDouble_pos 1 one_pos, roundPos_one]

/-- Double subtraction 3 - 0 is exact. -/
theorem fsub_three_zero : fsub 3 0 = 3 := by
  unfold fsub
  rw [show (3 : ℚ) - 0 = 3 by norm_num, roundDouble_pos 3 (by norm_num), roundPos_three]

/-- Double multiplication 1 * 1 is exact. -/
theorem fmul_one_one : fmul 1 1 = 1 := by
  unfold fmul
  rw [show (1 : ℚ) * 1 = 1 by norm_num, roundDouble_pos 1 one_pos, roundPos_one]

/-- Double division 1 / 3 rounds to `oneThirdDouble`. -/
theorem fdiv_one_three : fdiv 1 3 = oneThirdDouble := by
  unfold fdiv
  rw [show (1 : ℚ) / 3 = 1 / 3 by norm_num, roundDouble_pos (1 / 3) (by norm_num),
    roundPos_third]
  norm_num [oneThirdDouble]

/-- Double addition of 0 to a representable value is exact. -/
theorem fadd_x0_zero : fadd oneThirdDouble 0 = oneThirdDouble := by
  unfold fadd
  rw [show oneThirdDouble + 0 = oneThirdDouble by norm_num,
    roundDouble_pos oneThirdDouble (by norm_num [oneThirdDouble]), roundPos_oneThirdDouble]

/-- Double subtraction 0 - 1 is exact. -/
theorem fsub_zero_one : fsub 0 1 = -1 := by
  unfold fsub
  rw [show (0 : ℚ) - 1 = -1 by norm_num, roundDouble_neg 1 one_pos, roundPos_one]

/-- Double subtraction 1 - 3 is exact. -/
theorem fsub_one_three : fsub 1 3 = -2 := by
  unfold fsub
  rw [show (1 : ℚ) - 3 = -2 by norm_num, roundDouble_neg 2 two_pos, roundPos_two]

/-- Double subtraction 0 - 3 is exact. -/
theorem fsub_zero_three : fsub 0 3 = -3 := by
  unfold fsub
  rw [show (0 : ℚ) - 3 = -3 by norm_num, roundDouble_neg 3 (by norm_num), roundPos_three]

/-- Double multiplication (-1) * (-2) is exact. -/
theorem fmul_negs : fmul (-1) (-2) = 2 := by
  unfold fmul
  rw [show (-1 : ℚ) * (-2) = 2 by norm_num, roundDouble_pos 2 two_pos, roundPos_two]

/-- Double division 2 / (-3) rounds to `-0.66666666666666663`. -/
theorem fdiv_two_negthree : fdiv 2 (-3) = -(6004799503160661 / 2 ^ 53) := by
  unfold fdiv
  rw [show (2 : ℚ) / (-3) = -(2 / 3) by norm_num, roundDouble_neg (2 / 3) (by norm_num),
    roundPos_twoThirds]

/-- Double addition `-0.66666666666666663 + 1` gives `0.33333333333333337`,
one ulp ABOVE `oneThirdDouble`: the crossing x of the backward traversal. -/
theorem fadd_back : fadd (-(6004799503160661 / 2 ^ 53)) 1 = 3002399751580331 / 2 ^ 53 := by
  unfold fadd
  rw [show (-(6004799503160661 / 2 ^ 53) : ℚ) + 1 = 3002399751580331 / 2 ^ 53 by norm_num,
    roundDouble_pos _ (by norm_num), roundPos_backSum]

/-- Forward traversal of the segment (0,0)-(1,3): the crossing x rounds to
`oneThirdDouble` itself, so the strict comparison fails and no toggle fires. -/
theorem edgeF_fwd : edgeCrossesF (oneThirdDouble, 1) (0, 0) (1, 3) = false := by
  unfold edgeCrossesF
  norm_num [fsub_one_zero, fsub_three_zero, fmul_one_one, fdiv_one_three, fadd_x0_zero]

/-- Backward traversal of the same segment: the crossing x rounds one ulp
higher, the strict comparison holds, and the toggle fires. -/
theorem edgeF_bwd : edgeCrossesF (oneThirdDouble, 1) (1, 3) (0, 0) = true := by
  unfold edgeCrossesF
  norm_num [fsub_zero_one, fsub_one_three, fsub_zero_three, fmul_negs, fdiv_two_negthree,
    oneThirdDouble]
  rw [show (-(6004799503160661 / 9007199254740992) : ℚ) = -(6004799503160661 / 2 ^ 53) by
    norm_num]
  rw [fadd_back]
  norm_num

/-- Claim C7 counterexample: under the source's IEEE-754 double arithmetic the
two-vertex ring [(0,0),(1,3)] CONTAINS the point whose x-coordinate is the
double written `0.3333333333333333`: the forward and backward traversals of
the one segment round their crossing x differently (to `0.3333333333333333`
and `0.33333333333333337`), so exactly one toggle fires and the ray-casting
loop returns true, refuting "a degenerate ring contains no point". -/
theorem pointInRingF_two_vertex_counterexample :
    List.length [((0 : ℚ), (0 : ℚ)), (1, 3)] < 3 ∧
      pointInRingF (oneThirdDouble, 1) [((0 : ℚ), (0 : ℚ)), (1, 3)] = true := by
  refine ⟨by simp, ?_⟩
  show ((ringEdges [((0 : ℚ), (0 : ℚ)), (1, 3)]).map
      (fun e => edgeCrossesF (oneThirdDouble, 1) e.1 e.2)).foldl xor false = true
  rw [show ringEdges [((0 : ℚ), (0 : ℚ)), (1, 3)] =
      [(((0 : ℚ), (0 : ℚ)), ((1 : ℚ), (3 : ℚ))), (((1 : ℚ), (3 : ℚ)), ((0 : ℚ), (0 : ℚ)))]
    from rfl]
  simp only [List.map]
  rw [edgeF_fwd, edgeF_bwd]
  rfl

/-- Claim C7 (amended): under the source's IEEE-754 double arithmetic, a ring
with fewer than TWO vertices contains no point: the empty ring produces no
edge and the one-vertex ring's single self-edge never passes the straddle
guard (no arithmetic is involved, so no rounding can interfere).  For
two-vertex rings the always-false behavior holds only in exact arithmetic
(`pointInRing_degenerate_exact`); with rounding a two-vertex ring can report
containment, as `pointInRingF_two_vertex_counterexample` shows. -/
theorem pointInRingF_degenerate (p : ℚ × ℚ) (ring : List (ℚ × ℚ))
    (h : ring.length < 2) : pointInRingF p ring = false := by
  cases ring with
  | nil => rfl
  | cons v t =>
      cases t with
      | nil => simp [pointInRingF, ringEdges, edgeCrossesF]
      | cons w t2 =>
          exfalso
          simp only [List.length_cons] at h
          omega

/-- Claim C7 witness: the one-vertex ring at (7, 7) does not contain the point
(1, 1) under double arithmetic. -/
theorem pointInRingF_degenerate_witness :
    List.length [((7 : ℚ), (7 : ℚ))] < 2 ∧ pointInRingF (1, 1) [((7 : ℚ), (7 : ℚ))] = false :=
  ⟨by simp, pointInRingF_degenerate (1, 1) [((7 : ℚ), (7 : ℚ))] (by simp)⟩

/-- On a nonempty ring list, `isPointInPolygon` never throws and computes
"inside the exterior ring and inside no hole ring". -/
theorem isPointInPolygonE_cons (p : ℚ × ℚ) (ext : List (ℚ × ℚ))
    (holes : List (List (ℚ × ℚ))) :
    isPointInPolygonE p (ext :: holes) =
      some (pointInRing p ext && holes.all (fun h => !pointInRing p h)) := by
  unfold isPointInPolygonE
  cases hext : pointInRing p ext
  · simp [hext]
  · cases hany : holes.any (fun h => pointInRing p h)
    · have hall : holes.all (fun h => !pointInRing p h) = true := by
        simp only [List.all_eq_true]
        intro x hx
        have := List.any_eq_false.mp hany x hx
        simp_all
      simp [hext, hany, hall]
    · have hall : holes.all (fun h => !pointInRing p h) = false := by
        obtain ⟨x, hx, hpx⟩ := List.any_eq_true.mp hany
        simp only [List.all_eq_false]
        exact ⟨x, hx, by simp [hpx]⟩
      simp [hext, hany, hall]

/-- When the callback returns `some` on every element, JavaScript `some` does
not throw and agrees with the ordinary boolean `any`. -/
theorem someE_eq_any {α : Type} (f : α → Option Bool) (g : α → Bool) (l : List α)
    (hf : ∀ x ∈ l, f x = some (g x)) : someE f l = some (l.any g) := by
  induction l with
  | nil => rfl
  | cons x xs ih =>
      have hx := hf x (List.mem_cons_self x xs)
      simp only [someE, hx, List.any_cons]
      cases hgx : g x
      · simp only [Bool.false_or]
        exact ih (fun y hy => hf y (List.mem_cons_of_mem x hy))
      · rfl

/-- Claim C3: a point is contained in a Polygon geometry iff it is inside the
exterior (first) ring and inside none of the hole rings; a point is contained
in a MultiPolygon geometry iff some constituent polygon (each having an
exterior ring, per the data model) contains it under that same rule; and a
MultiPolygon with zero constituent polygons contains no point. -/
theorem isPointInGeometry_spec :
    (∀ (p : ℚ × ℚ) (ext : List (ℚ × ℚ)) (holes : List (List (ℚ × ℚ))),
      isPointInGeometry p (some (.polygon (ext :: holes))) =
        (pointInRing p ext && holes.all (fun h => !pointInRing p h))) ∧
    (∀ (p : ℚ × ℚ) (polys : List (List (List (ℚ × ℚ)))),
      (∀ poly ∈ polys, poly ≠ []) →
      isPointInGeometry p (some (.multiPolygon polys)) =
        polys.any (fun poly => isPointInGeometry p (some (.polygon poly)))) ∧
    (∀ p : ℚ × ℚ, isPointInGeometry p (some (.multiPolygon [])) = false) := by
  refine ⟨?_, ?_, fun p => rfl⟩
  · intro p ext holes
    show (isPointInPolygonE p (ext :: holes)).getD false = _
    rw [isPointInPolygonE_cons]
    rfl
  · intro p polys hne
    have hf : ∀ poly ∈ polys,
        isPointInPolygonE p poly = some (isPointInGeometry p (some (.polygon poly))) := by
      intro poly hm
      cases poly with
      | nil => exact absurd rfl (hne [] hm)
      | cons ext holes =>
          rw [isPointInPolygonE_cons]
          show _ = some ((isPointInPolygonE p (ext :: holes)).getD false)
          rw [isPointInPolygonE_cons]
          rfl
    show (someE (isPointInPolygonE p) polys).getD false = _
    rw [someE_eq_any _ _ polys hf]
    rfl

/-- Claim C3 witness: union semantics on a one-polygon MultiPolygon whose
polygon carries a hole. -/
theorem isPointInGeometry_spec_witness :
    isPointInGeometry (1, 1) (some (.multiPolygon [[squareRing, holeRing]])) =
      List.any [[squareRing, holeRing]]
        (fun poly => isPointInGeometry (1, 1) (some (.polygon poly))) :=
  isPointInGeometry_spec.2.1 (1, 1) [[squareRing, holeRing]]
    (by intro poly hm; simp only [List.mem_singleton] at hm; subst hm; simp)

/-- Claim C5: when the fetch-and-reparse step fails in any of its three ways,
`loadCommunityAreas` signals the error and leaves the state unchanged: the
cached records are not cleared or modified and the last-refresh timestamp is
not advanced. -/
theorem loadCommunityAreas_failure_preserves_state (st : GeoState) (now : Int)
    (fo : FetchOutcome) (hfail : isFetchFailure fo = true) :
    loadCommunityAreas st now fo = (st, .error ()) := by
  cases fo with
  | success data => simp [isFetchFailure] at hfail
  | networkError => rfl
  | httpError => rfl
  | jsonError => rfl

/-- Claim C5 witness: a failing refresh against a loaded store. -/
theorem loadCommunityAreas_failure_preserves_state_witness :
    isFetchFailure .httpError = true ∧
      loadCommunityAreas stOne 99 .httpError = (stOne, .error ()) :=
  ⟨rfl, loadCommunityAreas_failure_preserves_state stOne 99 .httpError rfl⟩

/-- A record passing the admission filter has all three fields present (the
filter also demands the two string fields be nonempty, which is stronger). -/
theorem recordAdmitted_fieldsPresent (a : RawArea) (h : recordAdmitted a = true) :
    fieldsPresent a = true := by
  obtain ⟨g, n, c⟩ := a
  cases g <;> cases n <;> cases c <;>
    simp_all [recordAdmitted, fieldsPresent, jsTruthyGeom, jsTruthyStr]

/-- Claim C9: every record admitted into the cache by a successful refresh has
a present geometry, identifier and display name; a raw record missing one of
the three is excluded; and the field-presence predicate is preserved by every
store operation (failed refreshes leave the cache unchanged, successful ones
admit only filtered records). -/
theorem cache_fields_present_invariant :
    (∀ (st : GeoState) (now : Int) (data : List RawArea) (a : RawArea),
      a ∈ (loadCommunityAreas st now (.success data)).1.communityAreasCache →
      fieldsPresent a = true) ∧
    (∀ (st : GeoState) (now : Int) (data : List RawArea) (a : RawArea),
      a ∈ data → fieldsPresent a = false →
      a ∉ (loadCommunityAreas st now (.success data)).1.communityAreasCache) ∧
    (∀ (st : GeoState) (now : Int) (fo : FetchOutcome),
      (∀ a ∈ st.communityAreasCache, fieldsPresent a = true) →
      ∀ a ∈ (loadCommunityAreas st now fo).1.communityAreasCache,
        fieldsPresent a = true) := by
  have hsucc : ∀ (st : GeoState) (now : Int) (data : List RawArea) (a : RawArea),
      a ∈ (loadCommunityAreas st now (.success data)).1.communityAreasCache →
      fieldsPresent a = true := by
    intro st now data a hm
    simp only [loadCommunityAreas] at hm
    exact recordAdmitted_fieldsPresent a (List.of_mem_filter hm)
  refine ⟨hsucc, ?_, ?_⟩
  · intro st now data a _ hmiss hm
    rw [hsucc st now data a hm] at hmiss
    exact absurd hmiss (by simp)
  · intro st now fo hinv a hm
    cases fo with
    | success data => exact hsucc st now data a hm
    | networkError => exact hinv a hm
    | httpError => exact hinv a hm
    | jsonError => exact hinv a hm

/-- Claim C9 witness: loading a feed holding one well-formed record and one
record with a missing identifier admits the first and excludes the second. -/
theorem cache_fields_present_invariant_witness :
    fieldsPresent areaOne = true ∧
      badArea ∉ (loadCommunityAreas stEmpty 5 (.success [areaOne, badArea])).1.communityAreasCache := by
  constructor
  · exact cache_fields_present_invariant.1 stEmpty 5 [areaOne, badArea] areaOne
      (by simp [loadCommunityAreas, List.filter, recordAdmitted, areaOne, badArea,
        jsTruthyGeom, jsTruthyStr])
  · exact cache_fields_present_invariant.2.1 stEmpty 5 [areaOne, badArea] badArea
      (by simp) (by simp [fieldsPresent, badArea])

/-- Claim C2 counterexample: a store that has loaded a record, gone stale, and
hits a failing fetch: the classifier call itself fails with the propagated
error even though cached data exists. -/
theorem stale_refresh_failure_counterexample :
    stOne.communityAreasCache ≠ [] ∧
      getCommunityAreaForCoordinates stOne (CACHE_DURATION + 1) .networkError 5 5 =
        (stOne, .error ()) := by
  constructor
  · simp [stOne]
  · have hstale : shouldRefreshCommunityCache stOne (CACHE_DURATION + 1) = true := by
      simp [shouldRefreshCommunityCache, stOne, CACHE_DURATION]
    simp [getCommunityAreaForCoordinates, ensureCommunityAreasLoaded, hstale,
      loadCommunityAreas]

/-- Claim C2 (amended): a classifier call whose lazy refresh attempt fails does
not complete successfully: the error propagates out of the call.  The
previously cached records are, however, not cleared: the state comes back
unchanged, and calls that trigger no refresh keep serving from it. -/
theorem refresh_failure_fails_lookup (st : GeoState) (now : Int) (fo : FetchOutcome)
    (lat lng : ℚ) (hstale : shouldRefreshCommunityCache st now = true)
    (hfail : isFetchFailure fo = true) :
    getCommunityAreaForCoordinates st now fo lat lng = (st, .error ()) := by
  unfold getCommunityAreaForCoordinates ensureCommunityAreasLoaded
  rw [hstale]
  cases fo with
  | success data => simp [isFetchFailure] at hfail
  | networkError => rfl
  | httpError => rfl
  | jsonError => rfl

/-- Claim C2 witness: the amended statement applied to a loaded-then-stale
store with a failing network fetch. -/
theorem refresh_failure_fails_lookup_witness :
    getCommunityAreaForCoordinates stOne (CACHE_DURATION + 1) .jsonError 5 5 =
      (stOne, .error ()) :=
  refresh_failure_fails_lookup stOne (CACHE_DURATION + 1) .jsonError 5 5
    (by simp [shouldRefreshCommunityCache, stOne, CACHE_DURATION]) rfl

/-- The point (5, 5) is inside the square geometry. -/
theorem ipg_square_in : isPointInGeometry (5, 5) (some squareGeom) = true := by
  norm_num [isPointInGeometry, squareGeom, isPointInPolygonE, pointInRing, ringEdges,
    squareRing, edgeCrosses]

/-- The point (1000, 1000) is outside the square geometry. -/
theorem ipg_square_out_far : isPointInGeometry (1000, 1000) (some squareGeom) = false := by
  norm_num [isPointInGeometry, squareGeom, isPointInPolygonE, pointInRing, ringEdges,
    squareRing, edgeCrosses]

/-- List `find?` returns the first element satisfying the predicate: if everything
before `a` fails the predicate and `a` passes it, the result is `a`. -/
theorem find?_prefix_match {α : Type} (p : α → Bool) (l₁ l₂ : List α) (a : α)
    (h₁ : ∀ b ∈ l₁, p b = false) (ha : p a = true) :
    (l₁ ++ a :: l₂).find? p = some a := by
  induction l₁ with
  | nil =>
      rw [List.nil_append]
      simp [List.find?, ha]
  | cons x xs ih =>
      rw [List.cons_append]
      have hx : p x = false := h₁ x (List.mem_cons_self x xs)
      simp only [List.find?, hx]
      exact ih (fun b hb => h₁ b (List.mem_cons_of_mem x hb))

/-- Claim C1 (amended): with the store loaded and fresh (no refresh fires), the
classifier iterates cached records in stored order; if no record's geometry
contains the point it returns null and no error; if some record matches, it
returns, for the first matching record, `parseInt` of its identifier when that
is a nonzero integer, and null when the identifier fails to parse or parses
to 0. -/
theorem getCommunityArea_first_match (st : GeoState) (now : Int) (fo : FetchOutcome)
    (lat lng : ℚ) (hfresh : shouldRefreshCommunityCache st now = false) :
    ((∀ a ∈ st.communityAreasCache, isPointInGeometry (lng, lat) a.the_geom = false) →
      getCommunityAreaForCoordinates st now fo lat lng = (st, .ok none)) ∧
    (∀ l₁ a l₂, st.communityAreasCache = l₁ ++ a :: l₂ →
      (∀ b ∈ l₁, isPointInGeometry (lng, lat) b.the_geom = false) →
      isPointInGeometry (lng, lat) a.the_geom = true →
      getCommunityAreaForCoordinates st now fo lat lng = (st, .ok (jsAreaId a))) := by
  have hens : ensureCommunityAreasLoaded st now fo = (st, Except.ok ()) := by
    unfold ensureCommunityAreasLoaded
    rw [hfresh]
    simp
  constructor
  · intro hnone
    have hfind : st.communityAreasCache.find?
        (fun a => isPointInGeometry (lng, lat) a.the_geom) = none :=
      List.find?_eq_none.mpr (fun a hm => by simp [hnone a hm])
    simp [getCommunityAreaForCoordinates, hens, classifyLoaded, hfind]
  · intro l₁ a l₂ hsplit h₁ ha
    have hfind : st.communityAreasCache.find?
        (fun b => isPointInGeometry (lng, lat) b.the_geom) = some a := by
      rw [hsplit]
      exact find?_prefix_match _ l₁ l₂ a h₁ ha
    simp [getCommunityAreaForCoordinates, hens, classifyLoaded, hfind]

/-- Claim C1 witness: a fresh store holding one record over the square
classifies an interior point to that record's parsed identifier. -/
theorem getCommunityArea_first_match_witness :
    getCommunityAreaForCoordinates stOne 1000 .networkError 5 5 = (stOne, .ok (some 1)) := by
  have h := (getCommunityArea_first_match stOne 1000 .networkError 5 5 (by decide)).2
    [] areaOne [] rfl (by simp) (by simpa [areaOne] using ipg_square_in)
  have hid : jsAreaId areaOne = some 1 := by decide
  rw [hid] at h
  exact h

/-- Claim C1 counterexample: a cached record whose identifier field is the
string "0" (truthy, so admitted by the load filter) matches the query point,
yet the classifier returns null rather than that record's identifier, because
`parseInt(area.area_numbe) || null` collapses the parsed 0 to null. -/
theorem getCommunityArea_zero_id_counterexample :
    isPointInGeometry (5, 5) areaZero.the_geom = true ∧
      parseIntJS "0" = some 0 ∧
      getCommunityAreaForCoordinates stZero 1000 .networkError 5 5 = (stZero, .ok none) := by
  have hpt : isPointInGeometry (5, 5) areaZero.the_geom = true := by
    simpa [areaZero] using ipg_square_in
  refine ⟨hpt, by decide, ?_⟩
  have hfresh : shouldRefreshCommunityCache stZero 1000 = false := by decide
  have hid : jsAreaId areaZero = none := by decide
  have hens : ensureCommunityAreasLoaded stZero 1000 .networkError = (stZero, Except.ok ()) := by
    unfold ensureCommunityAreasLoaded
    rw [hfresh]
    simp
  have hfind : List.find? (fun a => isPointInGeometry (5, 5) a.the_geom)
      stZero.communityAreasCache = some areaZero := by
    show List.find? _ [areaZero] = some areaZero
    simp [List.find?, hpt]
  simp [getCommunityAreaForCoordinates, hens, classifyLoaded, hfind, hid]

/-- Claim C4 counterexample: (1000, 1000) fails coordinate validation, yet the
classifier is not refused: the call succeeds and returns the null/none result,
indistinguishable from an ordinary not-found. -/
theorem invalid_coordinate_counterexample :
    isValidCoordinates (.num 1000) (.num 1000) = false ∧
      getCommunityAreaForCoordinates stOne 1000 .networkError 1000 1000 =
        (stOne, .ok none) := by
  constructor
  · norm_num [isValidCoordinates, isValidChicagoCoordinates, jsIsNaN, jsGe, jsLe]
  · have hfresh : shouldRefreshCommunityCache stOne 1000 = false := by decide
    have hpt : isPointInGeometry (1000, 1000) areaOne.the_geom = false := by
      simpa [areaOne] using ipg_square_out_far
    have hens : ensureCommunityAreasLoaded stOne 1000 .networkError = (stOne, Except.ok ()) := by
      unfold ensureCommunityAreasLoaded
      rw [hfresh]
      simp
    have hfind : List.find? (fun a => isPointInGeometry (1000, 1000) a.the_geom)
        stOne.communityAreasCache = none := by
      show List.find? _ [areaOne] = none
      simp [List.find?, hpt]
    simp [getCommunityAreaForCoordinates, hens, classifyLoaded, hfind]

/-- Claim C4 (amended): the classifier performs no coordinate validation at
all: even for an input rejected by `isValidCoordinates`, the call is not
refused with an error; it succeeds and returns the ordinary containment
result over the cached records. -/
theorem classifier_no_validation (st : GeoState) (now : Int) (fo : FetchOutcome)
    (lat lng : ℚ) (_hinvalid : isValidCoordinates (JSNum.num lat) (JSNum.num lng) = false)
    (hfresh : shouldRefreshCommunityCache st now = false) :
    getCommunityAreaForCoordinates st now fo lat lng =
      (st, .ok (classifyLoaded st.communityAreasCache lat lng)) := by
  unfold getCommunityAreaForCoordinates ensureCommunityAreasLoaded
  rw [hfresh]
  simp

/-- Claim C4 witness: the amended statement at the invalid coordinate
(1000, 1000) against a fresh loaded store. -/
theorem classifier_no_validation_witness :
    getCommunityAreaForCoordinates stOne 1000 .networkError 1000 1000 =
      (stOne, .ok (classifyLoaded stOne.communityAreasCache 1000 1000)) :=
  classifier_no_validation stOne 1000 .networkError 1000 1000
    (by norm_num [isValidCoordinates, isValidChicagoCoordinates, jsIsNaN, jsGe, jsLe])
    (by decide)

/-- Claim C8: the coordinate validator accepts a pair iff both components are
finite numbers (in particular not NaN; the infinities fail the envelope
comparisons) inside the [-90, 90]/[-180, 180] envelope and inside the Chicago
bounding box, with every bound inclusive: points exactly on a box edge are
accepted, points strictly outside any bound are rejected. -/
theorem isValidCoordinates_iff (lat lng : JSNum) :
    isValidCoordinates lat lng = true ↔
      ∃ a b : ℚ, lat = JSNum.num a ∧ lng = JSNum.num b ∧
        -90 ≤ a ∧ a ≤ 90 ∧ -180 ≤ b ∧ b ≤ 180 ∧
        41.6 ≤ a ∧ a ≤ 42.1 ∧ -88.3 ≤ b ∧ b ≤ -87.5 := by
  cases lat with
  | nan => simp [isValidCoordinates, jsIsNaN]
  | posInf => simp [isValidCoordinates, isValidChicagoCoordinates, jsIsNaN, jsGe, jsLe]
  | negInf => simp [isValidCoordinates, isValidChicagoCoordinates, jsIsNaN, jsGe, jsLe]
  | num a =>
      cases lng with
      | nan => simp [isValidCoordinates, jsIsNaN]
      | posInf => simp [isValidCoordinates, isValidChicagoCoordinates, jsIsNaN, jsGe, jsLe]
      | negInf => simp [isValidCoordinates, isValidChicagoCoordinates, jsIsNaN, jsGe, jsLe]
      | num b =>
          simp [isValidCoordinates, isValidChicagoCoordinates, jsIsNaN, jsGe, jsLe,
            and_assoc]

/-- Claim C8 witness: the corner of the configured bounding box, lying exactly
on two box edges, is accepted. -/
theorem isValidCoordinates_iff_witness :
    isValidCoordinates (JSNum.num 41.6) (JSNum.num (-88.3)) = true :=
  (isValidCoordinates_iff (JSNum.num 41.6) (JSNum.num (-88.3))).mpr
    ⟨41.6, -88.3, rfl, rfl, by norm_num, by norm_num, by norm_num, by norm_num,
      by norm_num, by norm_num, by norm_num, by norm_num⟩

/-- Claim C10: `correctParkCommunityArea` changes at most the `communityArea`
field: every other field of a successfully returned park equals the input's,
and when the classifier yields null or the already-stored identifier, the park
comes back entirely unchanged. -/
theorem correctParkCommunityArea_frame (st : GeoState) (now : Int) (fo : FetchOutcome)
    (park : Park) (st' : GeoState) (p' : Park)
    (h : correctParkCommunityArea st now fo park = (st', Except.ok p')) :
    (p'.id = park.id ∧ p'.name = park.name ∧ p'.address = park.address ∧
     p'.coordinates = park.coordinates ∧ p'.amenities = park.amenities ∧
     p'.description = park.description ∧ p'.size = park.size) ∧
    (∀ actual, getCommunityAreaForCoordinates st now fo park.coordinates.1
        park.coordinates.2 = (st', Except.ok actual) →
      (actual = none ∨ actual = some park.communityArea) → p' = park) := by
  unfold correctParkCommunityArea at h
  rcases hg : getCommunityAreaForCoordinates st now fo park.coordinates.1 park.coordinates.2
    with ⟨st1, r⟩
  rw [hg] at h
  cases r with
  | error e => simp at h
  | ok actual =>
      rw [Prod.mk.injEq] at h
      obtain ⟨hst, hex⟩ := h
      have hp : applyCorrection park actual = p' := by
        injection hex
      constructor
      · subst hp
        cases actual with
        | none => exact ⟨rfl, rfl, rfl, rfl, rfl, rfl, rfl⟩
        | some n =>
            by_cases hc : n ≠ 0 ∧ n ≠ park.communityArea <;>
              simp [applyCorrection, hc]
      · intro actual' hga hdisj
        rw [Prod.mk.injEq] at hga
        obtain ⟨_, haeq⟩ := hga
        have haa : actual = actual' := by injection haeq
        subst haa
        rcases hdisj with hnone | hsome
        · subst hnone
          rw [← hp]
          rfl
        · subst hsome
          rw [← hp]
          simp [applyCorrection]

/-- Claim C10 witness: correcting a park stored under community area 2 whose
coordinates classify to area 1 updates the assignment while preserving the
identity, name and coordinates fields. -/
theorem correctParkCommunityArea_frame_witness :
    correctParkCommunityArea stOne 1000 .networkError park1 = (stOne, .ok park1Corrected) ∧
      park1Corrected.id = park1.id ∧ park1Corrected.coordinates = park1.coordinates := by
  have hfresh : shouldRefreshCommunityCache stOne 1000 = false := by decide
  have hpt : isPointInGeometry (5, 5) areaOne.the_geom = true := by
    simpa [areaOne] using ipg_square_in
  have hens : ensureCommunityAreasLoaded stOne 1000 .networkError = (stOne, Except.ok ()) := by
    unfold ensureCommunityAreasLoaded
    rw [hfresh]
    simp
  have hid : jsAreaId areaOne = some 1 := by decide
  have hfind : List.find? (fun a => isPointInGeometry (5, 5) a.the_geom)
      stOne.communityAreasCache = some areaOne := by
    show List.find? _ [areaOne] = some areaOne
    simp [List.find?, hpt]
  have heq : correctParkCommunityArea stOne 1000 .networkError park1 =
      (stOne, .ok park1Corrected) := by
    have hget : getCommunityAreaForCoordinates stOne 1000 .networkError 5 5 =
        (stOne, .ok (some 1)) := by
      simp [getCommunityAreaForCoordinates, hens, classifyLoaded, hfind, hid]
    have hcoord : park1.coordinates = ((5 : ℚ), (5 : ℚ)) := rfl
    simp [correctParkCommunityArea, hcoord, hget, applyCorrection, park1, park1Corrected]
  refine ⟨heq, ?_, ?_⟩
  · exact ((correctParkCommunityArea_frame stOne 1000 .networkError park1 stOne
      park1Corrected heq).1).1
  · exact ((correctParkCommunityArea_frame stOne 1000 .networkError park1 stOne
      park1Corrected heq).1).2.2.2.1

end GeoSpatial
